import Mathlib

/- Formal model of the media demuxer probing core found in
   src/format/demuxer/demux.rs of the rust-av repository.  The model embeds
   the data types (DemuxerDescription, the Score enum, the DemuxerBuilder
   trait) and the probe selection function, together with the test fixture
   TestDemuxerBuilder from the test module, and proves the behavioural
   properties of the selection algorithm. -/

namespace RustAv

/-- Least amount of data needed to check the bytestream structure to match
some known format.  Source: pub const PROBE_DATA: usize = 4 * 1024. -/
def PROBE_DATA : Nat := 4 * 1024

/-- A byte of the probed stream, an unsigned 8-bit value. -/
abbrev Byte := Fin 256

/-- The probe sample: an array of exactly PROBE_DATA bytes, the type of the
data argument of the probe functions. -/
abbrev ProbeSample := Fin PROBE_DATA → Byte

/-- The index 0 is a valid position in a probe sample. -/
theorem probeDataPos : 0 < PROBE_DATA := by norm_num [PROBE_DATA]

/-- Probe threshold values.  Source: pub enum Score with discriminants
EXTENSION = 50, MIME = 75, MAX = 100. -/
inductive Score where
  | EXTENSION
  | MIME
  | MAX
deriving DecidableEq

/-- The numeric discriminant of a Score variant, the value produced by the
cast Score as u8 in the source. -/
def Score.toNat : Score → Nat
  | .EXTENSION => 50
  | .MIME => 75
  | .MAX => 100

/-- Static metadata identifying a format.  Source: pub struct
DemuxerDescription. -/
structure DemuxerDescription where
  name : String
  description : String
  extensions : List String
  mime : List String

/-- The DemuxerBuilder trait: a stateless factory that can describe itself
and score a probe sample.  The probe method returns a u8, hence the bound
probe_le.  The alloc method of the source returns a fresh boxed Demuxer
session object; sessions are modelled separately by DemuxState below and
alloc plays no role in selection, so it is not a field here. -/
structure DemuxerBuilder where
  describe : DemuxerDescription
  probe : ProbeSample → Nat
  probe_le : ∀ s, probe s ≤ 255

/-- One iteration of the probe loop: score the builder and replace the
current (max, candidate) pair exactly when the score is strictly greater
than the current max. -/
def probeStep (data : ProbeSample) (acc : Nat × Option DemuxerBuilder)
    (builder : DemuxerBuilder) : Nat × Option DemuxerBuilder :=
  let score := builder.probe data
  if acc.1 < score then (score, some builder) else acc

/-- The probe selector.  Source: pub fn probe.  Starting from
max = u8::min_value() = 0 and candidate = None, fold the loop body over the
registered builders in order, then return the candidate only if the final
max is strictly greater than Score::EXTENSION as u8. -/
def probe (demuxers : List DemuxerBuilder) (data : ProbeSample) :
    Option DemuxerBuilder :=
  let r := demuxers.foldl (probeStep data) (0, none)
  if Score.toNat Score.EXTENSION < r.1 then r.2 else none

/-- The value of the max accumulator after the probe loop has scanned the
whole registry. -/
def maxScore (data : ProbeSample) (demuxers : List DemuxerBuilder) : Nat :=
  (demuxers.foldl (probeStep data) (0, none)).1

/- ----------------------------------------------------------------- -/
/- Test fixtures from the test module of demux.rs, stamped out there by
   the module! macro-generated TestDemuxerBuilder. -/

/-- The static descriptor returned by TestDemuxerBuilder.describe. -/
def testDemuxerDescription : DemuxerDescription :=
  { name := "Test"
    description := "Test demuxer"
    extensions := [ "test", "t" ]
    mime := [ "x-application/test" ] }

/-- The test builder: probe returns Score::MAX as u8 when the first byte of
the sample is 0, and 0 otherwise. -/
def TestDemuxerBuilder : DemuxerBuilder :=
  { describe := testDemuxerDescription
    probe := fun data =>
      if data ⟨0, probeDataPos⟩ = (0 : Byte) then Score.toNat Score.MAX else 0
    probe_le := fun s => by
      dsimp only
      split <;> simp [Score.toNat] }

/-- A sample whose bytes are all 1, as built by the probe_demuxer test. -/
def sampleOnes : ProbeSample := fun _ => 1

/-- A sample whose first byte is 0 (here all bytes are 0), as built by the
probe_demuxer test after the assignment buf[0] = 0. -/
def sampleZeros : ProbeSample := fun _ => 0

/- Additional concrete builders, legal implementations of the
   DemuxerBuilder trait used to exercise the selector on boundary scores. -/

/-- A builder whose probe always returns 60, descriptor named A. -/
def builderA60 : DemuxerBuilder :=
  { describe := { name := "A", description := "A", extensions := [], mime := [] }
    probe := fun _ => 60
    probe_le := fun _ => by norm_num }

/-- A builder whose probe always returns 60, descriptor named B. -/
def builderB60 : DemuxerBuilder :=
  { describe := { name := "B", description := "B", extensions := [], mime := [] }
    probe := fun _ => 60
    probe_le := fun _ => by norm_num }

/-- A builder whose probe always returns exactly the threshold value 50. -/
def builder50 : DemuxerBuilder :=
  { describe := { name := "Fifty", description := "Fifty", extensions := [], mime := [] }
    probe := fun _ => 50
    probe_le := fun _ => by norm_num }

/-- A builder whose probe always returns 200, above Score::MAX but within
the u8 range the trait signature allows. -/
def builderBig : DemuxerBuilder :=
  { describe := { name := "Big", description := "Big", extensions := [], mime := [] }
    probe := fun _ => 200
    probe_le := fun _ => by norm_num }

/- ----------------------------------------------------------------- -/
/- Demuxer lifecycle. -/

/-- Modelled from the spec: the Demuxer trait of the source only declares
the lifecycle operations open, read_headers and read_packet, with no
implementation in the repository, so the session state machine
Unopened to Opened to HeadersRead to Streaming to Exhausted is taken from
the lifecycle contract of the specification. -/
inductive DemuxState where
  | Unopened
  | Opened
  | HeadersRead
  | Streaming
  | Exhausted
deriving DecidableEq

/-- Modelled from the spec: the lifecycle operations of a Demuxer session;
a read_packet call either produces a packet (readPacketOk) or fails with
the end-of-stream condition (readPacketEof). -/
inductive DemuxOp where
  | openInput
  | readHeaders
  | readPacketOk
  | readPacketEof
deriving DecidableEq

/-- Modelled from the spec: the legal transitions of a Demuxer session.
open is the only transition out of Unopened, read_headers the only one out
of Opened, read_packet loops within Streaming until an end-of-stream
failure moves the session to Exhausted, which is terminal. -/
def demuxStep : DemuxState → DemuxOp → Option DemuxState
  | .Unopened, .openInput => some .Opened
  | .Opened, .readHeaders => some .HeadersRead
  | .HeadersRead, .readPacketOk => some .Streaming
  | .HeadersRead, .readPacketEof => some .Exhausted
  | .Streaming, .readPacketOk => some .Streaming
  | .Streaming, .readPacketEof => some .Exhausted
  | _, _ => none

/-- A legal run of a Demuxer session: execute a list of operations from a
state, failing as soon as an operation is illegal in the current state. -/
def demuxRun : DemuxState → List DemuxOp → Option DemuxState
  | s, [] => some s
  | s, op :: ops =>
    match demuxStep s op with
    | some t => demuxRun t ops
    | none => none

/-- The number of read_headers calls in a list of operations. -/
def countReadHeaders : List DemuxOp → Nat
  | [] => 0
  | .readHeaders :: ops => countReadHeaders ops + 1
  | _ :: ops => countReadHeaders ops

/-- How many read_headers calls a legal run must have performed to reach a
given state: none before HeadersRead, exactly one from then on. -/
def hdrCount : DemuxState → Nat
  | .Unopened => 0
  | .Opened => 0
  | _ => 1

/- ----------------------------------------------------------------- -/
/- Helper lemmas about the probe loop. -/

/-- Scanning builders none of which beats the current max leaves the
accumulator unchanged. -/
lemma foldl_probeStep_stable (data : ProbeSample) (l : List DemuxerBuilder)
    (m : Nat) (c : Option DemuxerBuilder)
    (h : ∀ b ∈ l, b.probe data ≤ m) :
    l.foldl (probeStep data) (m, c) = (m, c) := by
  induction l with
  | nil => rfl
  | cons b l ih =>
    have hb : b.probe data ≤ m := h b (List.mem_cons_self b l)
    have hstep : probeStep data (m, c) b = (m, c) := by
      simp [probeStep, Nat.not_lt.mpr hb]
    rw [List.foldl_cons, hstep]
    exact ih (fun b hb => h b (List.mem_cons_of_mem _ hb))

/-- If the starting max and every score are below a bound, the final max is
below the bound. -/
lemma foldl_probeStep_fst_lt (data : ProbeSample) (l : List DemuxerBuilder)
    (m K : Nat) (c : Option DemuxerBuilder) (hm : m < K)
    (h : ∀ b ∈ l, b.probe data < K) :
    (l.foldl (probeStep data) (m, c)).1 < K := by
  induction l generalizing m c with
  | nil => exact hm
  | cons b l ih =>
    rw [List.foldl_cons]
    have hb : b.probe data < K := h b (List.mem_cons_self b l)
    by_cases hlt : m < b.probe data
    · simp only [probeStep, if_pos hlt]
      exact ih _ _ hb (fun b hb => h b (List.mem_cons_of_mem _ hb))
    · simp only [probeStep, if_neg hlt]
      exact ih _ _ hm (fun b hb => h b (List.mem_cons_of_mem _ hb))

/-- If the starting max and every score are at most a bound, the final max
is at most the bound. -/
lemma foldl_probeStep_fst_le (data : ProbeSample) (l : List DemuxerBuilder)
    (m K : Nat) (c : Option DemuxerBuilder) (hm : m ≤ K)
    (h : ∀ b ∈ l, b.probe data ≤ K) :
    (l.foldl (probeStep data) (m, c)).1 ≤ K := by
  induction l generalizing m c with
  | nil => exact hm
  | cons b l ih =>
    rw [List.foldl_cons]
    have hb : b.probe data ≤ K := h b (List.mem_cons_self b l)
    by_cases hlt : m < b.probe data
    · simp only [probeStep, if_pos hlt]
      exact ih _ _ hb (fun b hb => h b (List.mem_cons_of_mem _ hb))
    · simp only [probeStep, if_neg hlt]
      exact ih _ _ hm (fun b hb => h b (List.mem_cons_of_mem _ hb))

/-- The candidate after the scan is either the starting candidate or one of
the scanned builders. -/
lemma foldl_probeStep_snd_mem (data : ProbeSample) (l : List DemuxerBuilder)
    (m : Nat) (c : Option DemuxerBuilder) (b : DemuxerBuilder)
    (h : (l.foldl (probeStep data) (m, c)).2 = some b) :
    c = some b ∨ b ∈ l := by
  induction l generalizing m c with
  | nil => exact Or.inl h
  | cons a l ih =>
    rw [List.foldl_cons] at h
    by_cases hlt : m < a.probe data
    · simp only [probeStep, if_pos hlt] at h
      rcases ih _ _ h with ha | hl
      · exact Or.inr (by simp [Option.some_inj.mp ha.symm])
      · exact Or.inr (List.mem_cons_of_mem _ hl)
    · simp only [probeStep, if_neg hlt] at h
      rcases ih _ _ h with ha | hl
      · exact Or.inl ha
      · exact Or.inr (List.mem_cons_of_mem _ hl)

/-- First-maximum selection: a builder that strictly beats everything
before it, is not beaten by anything after it, and clears the threshold,
is the one the selector returns. -/
lemma probe_first_max (l1 l2 : List DemuxerBuilder) (data : ProbeSample)
    (b : DemuxerBuilder)
    (h1 : ∀ c ∈ l1, c.probe data < b.probe data)
    (h2 : ∀ c ∈ l2, c.probe data ≤ b.probe data)
    (hthr : 50 < b.probe data) :
    probe (l1 ++ b :: l2) data = some b := by
  have hpos : 0 < b.probe data := Nat.lt_of_le_of_lt (Nat.zero_le 50) hthr
  obtain ⟨m1, c1, hfold⟩ :
      ∃ m1 c1, l1.foldl (probeStep data) (0, none) = (m1, c1) :=
    ⟨_, _, rfl⟩
  have hm1 : m1 < b.probe data := by
    have := foldl_probeStep_fst_lt data l1 0 (b.probe data) none hpos h1
    rw [hfold] at this
    exact this
  have hstep : probeStep data (m1, c1) b = (b.probe data, some b) := by
    simp [probeStep, hm1]
  unfold probe
  rw [List.foldl_append, hfold, List.foldl_cons, hstep,
    foldl_probeStep_stable data l2 _ _ h2]
  simp [Score.toNat, hthr]

/-- A run of the lifecycle machine performs exactly as many read_headers
calls as the reached state requires. -/
lemma demuxRun_countReadHeaders (ops : List DemuxOp) (s t : DemuxState)
    (h : demuxRun s ops = some t) :
    hdrCount s + countReadHeaders ops = hdrCount t := by
  induction ops generalizing s with
  | nil =>
    simp [demuxRun] at h
    subst h
    simp [countReadHeaders]
  | cons op ops ih =>
    cases s <;> cases op <;>
      simp only [demuxRun, demuxStep] at h <;>
      first
      | exact absurd h (by simp)
      | · have := ih _ h
          simp only [countReadHeaders, hdrCount] at *
          omega

/- ----------------------------------------------------------------- -/
/- Claim theorems. -/

/-- Claim C1: on a two-builder registry with identical scores strictly
greater than 50 the selector returns the builder registered earlier, and in
general a later builder whose score equals the current maximum never
changes the selection, because the leader is updated only on a strictly
greater score. -/
theorem claim1_tie_break :
    (∀ (data : ProbeSample) (A B : DemuxerBuilder),
      B.probe data = A.probe data → 50 < A.probe data →
      probe [A, B] data = some A) ∧
    (∀ (l1 l2 : List DemuxerBuilder) (data : ProbeSample) (b : DemuxerBuilder),
      b.probe data = maxScore data l1 →
      probe (l1 ++ b :: l2) data = probe (l1 ++ l2) data) := by
  constructor
  · intro data A B hBA hA
    have hpos : 0 < A.probe data := Nat.lt_of_le_of_lt (Nat.zero_le 50) hA
    unfold probe
    rw [List.foldl_cons, List.foldl_cons, List.foldl_nil]
    have h1 : probeStep data (0, none) A = (A.probe data, some A) := by
      simp [probeStep, hpos]
    have h2 : probeStep data (A.probe data, some A) B = (A.probe data, some A) := by
      simp [probeStep, hBA]
    rw [h1, h2]
    simp [Score.toNat, hA]
  · intro l1 l2 data b hb
    have hirr : ¬ (l1.foldl (probeStep data) (0, none)).1 < b.probe data := by
      rw [hb]
      exact Nat.lt_irrefl _
    have hstep :
        probeStep data (l1.foldl (probeStep data) (0, none)) b =
          l1.foldl (probeStep data) (0, none) := by
      simp only [probeStep, if_neg hirr]
    unfold probe
    rw [List.foldl_append, List.foldl_append, List.foldl_cons, hstep]

/-- Claim C1 witness: two builders registered in order A then B, both
scoring 60 on the all-ones sample; the selector returns A. -/
theorem claim1_tie_break_witness :
    probe [builderA60, builderB60] sampleOnes = some builderA60 :=
  claim1_tie_break.1 sampleOnes builderA60 builderB60 rfl
    (by norm_num [builderA60])

/-- Claim C2: when every score in the registry is at most 50 the selector
returns no match; in particular a single builder scoring exactly 50 yields
no match. -/
theorem claim2_strict_threshold :
    (∀ (l : List DemuxerBuilder) (data : ProbeSample),
      (∀ b ∈ l, b.probe data ≤ 50) → probe l data = none) ∧
    (∀ (b : DemuxerBuilder) (data : ProbeSample),
      b.probe data = 50 → probe [b] data = none) := by
  have main : ∀ (l : List DemuxerBuilder) (data : ProbeSample),
      (∀ b ∈ l, b.probe data ≤ 50) → probe l data = none := by
    intro l data h
    have hle : (l.foldl (probeStep data) (0, none)).1 ≤ 50 :=
      foldl_probeStep_fst_le data l 0 50 none (Nat.zero_le 50) h
    show (if 50 < (l.foldl (probeStep data) (0, none)).1
      then (l.foldl (probeStep data) (0, none)).2 else none) = none
    rw [if_neg (Nat.not_lt.mpr hle)]
  refine ⟨main, fun b data hb => main [b] data ?_⟩
  intro c hc
  rw [List.mem_singleton] at hc
  subst hc
  exact Nat.le_of_eq hb

/-- Claim C2 witness: a single builder scoring exactly 50 on the all-ones
sample yields no match. -/
theorem claim2_strict_threshold_witness :
    probe [builder50] sampleOnes = none :=
  claim2_strict_threshold.2 builder50 sampleOnes rfl

/-- Claim C3: if exactly one builder in the registry scores strictly above
50 (every other builder scores at most 50), the selector returns that
builder. -/
theorem claim3_unique_above_threshold :
    ∀ (l1 l2 : List DemuxerBuilder) (b : DemuxerBuilder) (data : ProbeSample),
      50 < b.probe data →
      (∀ c ∈ l1, c.probe data ≤ 50) →
      (∀ c ∈ l2, c.probe data ≤ 50) →
      probe (l1 ++ b :: l2) data = some b := by
  intro l1 l2 b data hb h1 h2
  exact probe_first_max l1 l2 data b
    (fun c hc => Nat.lt_of_le_of_lt (h1 c hc) hb)
    (fun c hc => Nat.le_of_lt (Nat.lt_of_le_of_lt (h2 c hc) hb))
    hb

/-- Claim C3 witness: among a builder scoring 50, one scoring 60 and the
test builder scoring 0 on the all-ones sample, the selector returns the
unique builder above the threshold. -/
theorem claim3_unique_above_threshold_witness :
    probe [builder50, builderA60, TestDemuxerBuilder] sampleOnes =
      some builderA60 :=
  claim3_unique_above_threshold [builder50] [TestDemuxerBuilder] builderA60
    sampleOnes (by norm_num [builderA60])
    (fun c hc => by
      rw [List.mem_singleton] at hc
      subst hc
      decide)
    (fun c hc => by
      rw [List.mem_singleton] at hc
      subst hc
      decide)

/-- Claim C4: the selector applied to an empty registry returns no match on
every probe sample. -/
theorem claim4_empty_registry :
    ∀ data : ProbeSample, probe [] data = none := fun _ => rfl

/-- Claim C5 counterexample: the DemuxerBuilder probe contract only bounds
scores by the u8 range, so a legal builder (probe constantly 200) returns a
score outside [0, 100] on the all-zeros sample. -/
theorem claim5_counterexample :
    ¬ (∀ (b : DemuxerBuilder) (data : ProbeSample), b.probe data ≤ 100) :=
  fun h => absurd (h builderBig sampleZeros) (by decide)

/-- Claim C5 amended: the score returned by any builder is an unsigned
8-bit value, hence within [0, 255]; the TestDemuxerBuilder of the
repository does keep its scores within [0, 100]. -/
theorem claim5_amended_score_range :
    (∀ (b : DemuxerBuilder) (data : ProbeSample), b.probe data ≤ 255) ∧
    (∀ data : ProbeSample, TestDemuxerBuilder.probe data ≤ 100) := by
  refine ⟨fun b data => b.probe_le data, fun data => ?_⟩
  show (if data ⟨0, probeDataPos⟩ = (0 : Byte)
      then Score.toNat Score.MAX else 0) ≤ 100
  split <;> simp [Score.toNat]

/-- Claim C6: with a registry holding only the test builder (probe 100 when
the first byte is 0, otherwise 0), the selector returns no match on every
sample whose first byte is 1 and returns the test builder on every sample
whose first byte is 0. -/
theorem claim6_test_builder_scenario :
    (∀ data : ProbeSample, data ⟨0, probeDataPos⟩ = 1 →
      probe [TestDemuxerBuilder] data = none) ∧
    (∀ data : ProbeSample, data ⟨0, probeDataPos⟩ = 0 →
      probe [TestDemuxerBuilder] data = some TestDemuxerBuilder) := by
  constructor
  · intro data h
    have hp : TestDemuxerBuilder.probe data = 0 := by
      show (if data ⟨0, probeDataPos⟩ = (0 : Byte)
          then Score.toNat Score.MAX else 0) = 0
      rw [h]
      decide
    have hstep : probeStep data (0, none) TestDemuxerBuilder = (0, none) := by
      simp [probeStep, hp]
    unfold probe
    rw [List.foldl_cons, List.foldl_nil, hstep]
    rfl
  · intro data h
    have hp : TestDemuxerBuilder.probe data = 100 := by
      show (if data ⟨0, probeDataPos⟩ = (0 : Byte)
          then Score.toNat Score.MAX else 0) = 100
      rw [h]
      decide
    have hstep : probeStep data (0, none) TestDemuxerBuilder =
        (100, some TestDemuxerBuilder) := by
      simp [probeStep, hp]
    unfold probe
    rw [List.foldl_cons, List.foldl_nil, hstep]
    rfl

/-- Claim C6 witness: the two samples of the probe_demuxer test, all ones
and all zeros, produce no match and a match of the test builder. -/
theorem claim6_test_builder_scenario_witness :
    probe [TestDemuxerBuilder] sampleOnes = none ∧
    probe [TestDemuxerBuilder] sampleZeros = some TestDemuxerBuilder :=
  ⟨claim6_test_builder_scenario.1 sampleOnes rfl,
    claim6_test_builder_scenario.2 sampleZeros rfl⟩

/-- Claim C7: PROBE_DATA is 4096 and is the length of the sample array the
probe functions accept, and the Score reference points are EXTENSION = 50,
MIME = 75 and MAX = 100. -/
theorem claim7_constants :
    PROBE_DATA = 4096 ∧ ProbeSample = (Fin 4096 → Byte) ∧
    Score.toNat Score.EXTENSION = 50 ∧ Score.toNat Score.MIME = 75 ∧
    Score.toNat Score.MAX = 100 :=
  ⟨rfl, rfl, rfl, rfl, rfl⟩

/-- Claim C8: in the lifecycle machine, open is the only transition out of
Unopened, read_headers the only one out of Opened, read_packet loops within
Streaming until an end-of-stream failure moves the session to Exhausted, no
operation leaves Exhausted, and every legal run from Unopened performs
read_headers exactly as many times as the reached state requires (zero
before HeadersRead, exactly once from then on). -/
theorem claim8_lifecycle :
    (∀ (op : DemuxOp) (t : DemuxState),
      demuxStep .Unopened op = some t → op = .openInput) ∧
    (∀ (op : DemuxOp) (t : DemuxState),
      demuxStep .Opened op = some t → op = .readHeaders) ∧
    (demuxStep .Streaming .readPacketOk = some .Streaming ∧
      demuxStep .Streaming .readPacketEof = some .Exhausted) ∧
    (∀ op : DemuxOp, demuxStep .Exhausted op = none) ∧
    (∀ (ops : List DemuxOp) (t : DemuxState),
      demuxRun .Unopened ops = some t → countReadHeaders ops = hdrCount t) := by
  refine ⟨?_, ?_, ⟨rfl, rfl⟩, ?_, ?_⟩
  · intro op t h
    cases op <;> first | rfl | simp [demuxStep] at h
  · intro op t h
    cases op <;> first | rfl | simp [demuxStep] at h
  · intro op
    cases op <;> rfl
  · intro ops t h
    have := demuxRun_countReadHeaders ops .Unopened t h
    simpa [hdrCount] using this

/-- Claim C8 witness: the run open, read_headers, read_packet (a packet),
read_packet (end of stream) is legal, ends in Exhausted, and contains
exactly one read_headers call. -/
theorem claim8_lifecycle_witness :
    countReadHeaders [DemuxOp.openInput, DemuxOp.readHeaders,
      DemuxOp.readPacketOk, DemuxOp.readPacketEof] =
      hdrCount DemuxState.Exhausted :=
  claim8_lifecycle.2.2.2.2
    [DemuxOp.openInput, DemuxOp.readHeaders, DemuxOp.readPacketOk,
      DemuxOp.readPacketEof] DemuxState.Exhausted rfl

/-- Claim C9: whenever the selector returns a builder, that builder is an
element of the registry it was given. -/
theorem claim9_membership :
    ∀ (l : List DemuxerBuilder) (data : ProbeSample) (b : DemuxerBuilder),
      probe l data = some b → b ∈ l := by
  intro l data b h
  unfold probe at h
  by_cases hthr :
      Score.toNat Score.EXTENSION < (l.foldl (probeStep data) (0, none)).1
  · rw [if_pos hthr] at h
    rcases foldl_probeStep_snd_mem data l 0 none b h with hc | hm
    · exact absurd hc (by simp)
    · exact hm
  · rw [if_neg hthr] at h
    exact absurd h (by simp)

/-- Claim C9 witness: on the all-zeros sample the selector picks the test
builder out of the singleton registry, and it is indeed a member. -/
theorem claim9_membership_witness :
    TestDemuxerBuilder ∈ [TestDemuxerBuilder] :=
  claim9_membership [TestDemuxerBuilder] sampleZeros TestDemuxerBuilder rfl

/-- Claim C10: the selector never clamps or rejects scores above
Score::MAX: a builder whose probe constantly returns 200 (a u8 value above
100) is a legal builder, a registry holding it selects it, and in general
any builder whose score is the maximum and exceeds 50 is selected whatever
its magnitude. -/
theorem claim10_above_max_scores :
    (∀ data : ProbeSample, builderBig.probe data = 200) ∧
    (∀ data : ProbeSample, probe [builderBig] data = some builderBig) ∧
    (∀ (l1 l2 : List DemuxerBuilder) (data : ProbeSample) (b : DemuxerBuilder),
      100 < b.probe data →
      (∀ c ∈ l1, c.probe data < b.probe data) →
      (∀ c ∈ l2, c.probe data ≤ b.probe data) →
      probe (l1 ++ b :: l2) data = some b) := by
  refine ⟨fun _ => rfl, ?_, ?_⟩
  · intro data
    exact probe_first_max [] [] data builderBig
      (fun c hc => absurd hc (List.not_mem_nil c))
      (fun c hc => absurd hc (List.not_mem_nil c))
      ((by norm_num : (50 : Nat) < 200))
  · intro l1 l2 data b hb h1 h2
    exact probe_first_max l1 l2 data b h1 h2
      (Nat.lt_trans (by norm_num) hb)

/-- Claim C10 witness: a registry holding a threshold-level builder and the
score-200 builder selects the score-200 builder on the all-ones sample. -/
theorem claim10_above_max_scores_witness :
    probe [builder50, builderBig] sampleOnes = some builderBig :=
  claim10_above_max_scores.2.2 [builder50] [] sampleOnes builderBig
    ((by norm_num : (100 : Nat) < 200))
    (fun c hc => by
      rw [List.mem_singleton] at hc
      subst hc
      decide)
    (fun c hc => absurd hc (List.not_mem_nil c))

end RustAv
